import Mathlib

/-!
Verification development for the basketball stat-clicker application
(`src/app.py`). The core engine is embedded shallowly:

* a player's `stats` dict (`{key: int}`) becomes an association list
  `List (String × Int)` with Python-dict get/set semantics
  (`get` with default `0`; assignment replaces in place, else appends);
* the session state (`st.session_state.roster` / `selected` /
  `action_stack`) becomes the structure `AppState`;
* the handlers `apply_change`, `click_button`, `undo_last`, `build_df`,
  the sidebar roster handlers (add / import / reset / clear / remove) are
  translated function by function.  Fallible handlers return
  `Except Err AppState`; an error corresponds to a Python exception or a
  reported `st.error`, in both cases raised before any session-state
  mutation, so the erroring state is unchanged.
-/

namespace StatClicker

/-- The stat keys of the exported table, `EXPORT_COLUMNS` in `app.py`. -/
def EXPORT_COLUMNS : List String :=
  ["PTS", "REB", "AST", "2PM", "2PA", "3PM", "3PA", "STL", "BLK", "TOV"]

/-- The button catalog `BUTTONS` of `app.py`:
`(label, stat_key, delta, implies_attempt_key or None)`. -/
def BUTTONS : List (String × String × Int × Option String) :=
  [ ("2PM",     "2PM", 1, some "2PA"),
    ("2P Miss", "2PA", 1, none),
    ("3PM",     "3PM", 1, some "3PA"),
    ("3P Miss", "3PA", 1, none),
    ("REB",     "REB", 1, none),
    ("AST",     "AST", 1, none),
    ("STL",     "STL", 1, none),
    ("BLK",     "BLK", 1, none),
    ("TOV",     "TOV", 1, none) ]

/-- Python `str.lower()` on one character (ASCII, which covers the
header names the import compares). -/
def lowerChar (c : Char) : Char :=
  if 'A' ≤ c ∧ c ≤ 'Z' then Char.ofNat (c.toNat + 32) else c

/-- Python `str.lower()`. -/
def lowerStr (s : String) : String := ⟨s.data.map lowerChar⟩

/-- Python `str.strip()`: remove leading and trailing whitespace. -/
def stripStr (s : String) : String :=
  ⟨((s.data.dropWhile Char.isWhitespace).reverse.dropWhile Char.isWhitespace).reverse⟩

/-- Split a character list at every occurrence of a separator, keeping
empty fields (the behaviour of Python `str.split(sep)` with an explicit
separator). -/
def splitChar (sep : Char) : List Char → List (List Char)
  | [] => [[]]
  | c :: rest =>
      match splitChar sep rest with
      | [] => [[c]]
      | h :: t => if c = sep then [] :: h :: t else (c :: h) :: t

/-- A player's stats dict, as an association list in insertion order
(Python `dict` keeps insertion order and never holds a key twice). -/
abbrev Stats := List (String × Int)

/-- Python `stats.get(key, 0)`. -/
def getStat : Stats → String → Int
  | [], _ => 0
  | (k', v) :: rest, k => if k' = k then v else getStat rest k

/-- Python `stats[key] = v`: replace the value at an existing key in
place, otherwise append the new binding. -/
def setStat : Stats → String → Int → Stats
  | [], k, v => [(k, v)]
  | (k', v') :: rest, k, v =>
      if k' = k then (k, v) :: rest else (k', v') :: setStat rest k v

/-- `blank_stats()` in `app.py`: every export column except `PTS`,
mapped to `0`. -/
def blank_stats : Stats :=
  (EXPORT_COLUMNS.filter (fun k => !(k == "PTS"))).map (fun k => (k, (0 : Int)))

/-- `points(stats)` in `app.py`: `2 * stats.get("2PM", 0) + 3 * stats.get("3PM", 0)`. -/
def points (stats : Stats) : Int :=
  2 * getStat stats "2PM" + 3 * getStat stats "3PM"

/-- One roster entry: `{"name": str, "number": str, "stats": {key: int}}`. -/
structure Player where
  name : String
  number : String
  stats : Stats
  deriving Repr, DecidableEq

/-- The per-session state of `app.py`: `st.session_state.roster`,
`st.session_state.selected`, `st.session_state.action_stack`.
The action stack is a list of `(player_index, changes)` pairs pushed at
the back (`append`) and popped from the back (`pop`). -/
structure AppState where
  roster : List Player
  selected : Option Nat
  action_stack : List (Nat × List (String × Int))
  deriving Repr, DecidableEq

/-- The state set up by `ensure_state()` on first load. -/
def initState : AppState :=
  { roster := [], selected := none, action_stack := [] }

/-- Error kinds of the spec; in `app.py` they appear as the `IndexError`
raised by an out-of-range list index, the `st.error` for a blank name,
and the `st.error` for a missing `name` CSV column. -/
inductive Err where
  | notFound
  | validation
  | schema
  deriving Repr, DecidableEq

/-- The body of the `for key, delta in changes` loop of `apply_change`:
skip `PTS`, otherwise `stats[key] = max(0, stats.get(key, 0) + delta)`. -/
def applyFwd (s : Stats) (changes : List (String × Int)) : Stats :=
  changes.foldl
    (fun s kd =>
      if kd.1 = "PTS" then s
      else setStat s kd.1 (max 0 (getStat s kd.1 + kd.2)))
    s

/-- The body of the undo loop of `undo_last`:
`stats[key] = max(0, stats.get(key, 0) - delta)` (no `PTS` skip). -/
def applyUndo (s : Stats) (changes : List (String × Int)) : Stats :=
  changes.foldl
    (fun s kd => setStat s kd.1 (max 0 (getStat s kd.1 - kd.2)))
    s

/-- `apply_change(player_idx, changes)` of `app.py`.  The Python code
first evaluates `st.session_state.roster[player_idx]`, which raises
`IndexError` before any mutation when the index is out of range; here
that is the `Err.notFound` branch.  On success it clamps each delta at
zero and appends `(player_idx, changes)` to the action stack. -/
def apply_change (st : AppState) (player_idx : Nat) (changes : List (String × Int)) :
    Except Err AppState :=
  match st.roster[player_idx]? with
  | none => .error .notFound
  | some p =>
      .ok { st with
              roster := st.roster.set player_idx { p with stats := applyFwd p.stats changes },
              action_stack := st.action_stack ++ [(player_idx, changes)] }

/-- `click_button(stat_key, delta, implies_attempt)` of `app.py`: with no
selected player it warns and returns (state untouched); otherwise it
builds the changes list and calls `apply_change` on the selected index. -/
def click_button (st : AppState) (stat_key : String) (delta : Int)
    (implies_attempt : Option String) : Except Err AppState :=
  match st.selected with
  | none => .ok st
  | some idx =>
      let changes :=
        match implies_attempt with
        | some a => [(stat_key, delta), (a, delta)]
        | none => [(stat_key, delta)]
      apply_change st idx changes

/-- `undo_last()` of `app.py`.  Returns the popped/acted flag the spec
calls the boolean result of `undo()`: `false` iff the stack was empty
("Nothing to undo").  A popped entry whose index no longer resolves is
discarded silently (the `if idx < 0 or idx >= len(...)` early return,
taken after the pop). -/
def undo_last (st : AppState) : Bool × AppState :=
  match st.action_stack.getLast? with
  | none => (false, st)
  | some (idx, changes) =>
      let stack1 := st.action_stack.dropLast
      match st.roster[idx]? with
      | none => (true, { st with action_stack := stack1 })
      | some p =>
          (true, { st with
                     roster := st.roster.set idx { p with stats := applyUndo p.stats changes },
                     action_stack := stack1 })

/-- The "Add to roster" sidebar handler (`app.py` lines 128-138): a name
that strips to empty reports a validation error and changes nothing;
otherwise the trimmed player is appended with `blank_stats()` and, when
nothing was selected, the selection becomes index `0`. -/
def add_player (st : AppState) (name number : String) : Except Err AppState :=
  if stripStr name = "" then .error .validation
  else
    .ok { st with
            roster := st.roster ++ [{ name := stripStr name, number := stripStr number,
                                      stats := blank_stats }],
            selected := if st.selected = none then some 0 else st.selected }

/-- The "Reset all stats (keep roster)" handler (`app.py` lines 180-184). -/
def reset_all_stats (st : AppState) : AppState :=
  { st with
      roster := st.roster.map (fun p => { p with stats := blank_stats }),
      action_stack := [] }

/-- The "Clear roster" handler (`app.py` lines 186-190). -/
def clear_roster (_st : AppState) : AppState :=
  { roster := [], selected := none, action_stack := [] }

/-- The "Remove selected player" handler (`app.py` lines 220-229).
`roster.pop(rm_idx)` raises `IndexError` before the stack is cleared
when the index is out of range; that is the `Err.notFound` branch. -/
def remove_selected (st : AppState) : Except Err AppState :=
  match st.selected with
  | none => .ok st
  | some rm_idx =>
      if rm_idx < st.roster.length then
        let roster1 := st.roster.eraseIdx rm_idx
        .ok { roster := roster1,
              selected :=
                if roster1.length = 0 then none
                else some (min rm_idx (roster1.length - 1)),
              action_stack := [] }
      else .error .notFound

/-- Row lookup `str(r.get(col, ""))` of the import loop, with the column
identified by its index in the header: the cell at that index, or `""`
when the row has no such cell. -/
def cellAt (r : List String) (i : Nat) : String := r.getD i ""

/-- The roster-import handler (`app.py` lines 152-175), over the parsed
table (`header` row and data `rows`) that `pd.read_csv` hands to it; the
CSV decoding itself is external I/O glue.  Lower-cases and trims the
header, requires a `name` column (else `SchemaError`, state untouched),
picks the number column in priority order `number`, `jersey`,
`jersey_number`, skips rows whose trimmed name is empty, gives every
kept row `blank_stats()`, then replaces the roster, resets the
selection, and clears the action stack. -/
def import_roster (_st : AppState) (header : List String) (rows : List (List String)) :
    Except Err AppState :=
  let cols := header.map (fun c => stripStr (lowerStr c))
  if "name" ∈ cols then
    let name_idx := cols.indexOf "name"
    let number_idx : Option Nat :=
      if "number" ∈ cols then some (cols.indexOf "number")
      else if "jersey" ∈ cols then some (cols.indexOf "jersey")
      else if "jersey_number" ∈ cols then some (cols.indexOf "jersey_number")
      else none
    let new_roster := rows.filterMap (fun r =>
      let nm := stripStr (cellAt r name_idx)
      if nm = "" then none
      else
        some { name := nm,
               number :=
                 match number_idx with
                 | some j => stripStr (cellAt r j)
                 | none => "",
               stats := blank_stats })
    .ok { roster := new_roster,
          selected := if new_roster.isEmpty then none else some 0,
          action_stack := [] }
  else .error .schema


/-- Splitting a plain (unquoted) CSV source into its table of cells:
lines, then comma-separated fields; blank lines are skipped.  This is
the reading `pd.read_csv` performs on the simple sources the spec
discusses. -/
def parseRows (src : String) : List (List String) :=
  ((splitChar '\n' src.data).filter (fun l => !l.isEmpty)).map
    (fun line => (splitChar ',' line).map (fun cs => String.mk cs))

/-- One row of the exported table of `build_df` (`app.py` lines 85-98). -/
structure Row where
  PLAYER : String
  NUMBER : String
  PTS : Int
  REB : Int
  AST : Int
  «2PM» : Int
  «2PA» : Int
  «3PM» : Int
  «3PA» : Int
  STL : Int
  BLK : Int
  TOV : Int
  deriving Repr, DecidableEq

/-- The row dict built for one player inside `build_df`: `PTS` is
`points(s)`, every other numeric column is `s.get(key, 0)`. -/
def row_of_player (p : Player) : Row :=
  { PLAYER := p.name, NUMBER := p.number,
    PTS := points p.stats,
    REB := getStat p.stats "REB", AST := getStat p.stats "AST",
    «2PM» := getStat p.stats "2PM", «2PA» := getStat p.stats "2PA",
    «3PM» := getStat p.stats "3PM", «3PA» := getStat p.stats "3PA",
    STL := getStat p.stats "STL", BLK := getStat p.stats "BLK",
    TOV := getStat p.stats "TOV" }

/-- The `TOTALS` row appended by `build_df` (`app.py` lines 104-108):
`PLAYER = "TOTALS"`, `NUMBER = ""`, each numeric column the sum of that
column over the player rows. -/
def totals_row (rows : List Row) : Row :=
  { PLAYER := "TOTALS", NUMBER := "",
    PTS := (rows.map Row.PTS).sum,
    REB := (rows.map Row.REB).sum, AST := (rows.map Row.AST).sum,
    «2PM» := (rows.map Row.«2PM»).sum, «2PA» := (rows.map Row.«2PA»).sum,
    «3PM» := (rows.map Row.«3PM»).sum, «3PA» := (rows.map Row.«3PA»).sum,
    STL := (rows.map Row.STL).sum, BLK := (rows.map Row.BLK).sum,
    TOV := (rows.map Row.TOV).sum }

/-- `build_df()` of `app.py` (lines 81-111) as the list of its rows (the
fixed header is the `Row` type itself): one row per roster player, and a
trailing totals row exactly when the roster row list is non-empty. -/
def build_df (st : AppState) : List Row :=
  let rows := st.roster.map row_of_player
  if rows.length > 0 then rows ++ [totals_row rows] else rows

/-- The user-driven operations of the app.  `click i` presses the `i`-th
of the nine stat buttons (which calls `click_button` with that catalog
entry for the currently selected player); `select` covers the selectbox
(modelled permissively: any value, a superset of what the UI offers);
the rest are the sidebar/undo handlers. -/
inductive Op where
  | click (i : Fin 9)
  | undo
  | select (sel : Option Nat)
  | add (name number : String)
  | removeSel
  | reset
  | clear
  | importTable (header : List String) (rows : List (List String))

/-- Resolve a fallible handler the way the hosting app does: an error is
raised (or reported) before any session-state mutation, so the state is
kept as it was. -/
def orElseSame (st : AppState) : Except Err AppState → AppState
  | .ok st' => st'
  | .error _ => st

/-- One user interaction. -/
def step (st : AppState) : Op → AppState
  | .click i =>
      let b := BUTTONS.get i
      orElseSame st (click_button st b.2.1 b.2.2.1 b.2.2.2)
  | .undo => (undo_last st).2
  | .select sel => { st with selected := sel }
  | .add name number => orElseSame st (add_player st name number)
  | .removeSel => orElseSame st (remove_selected st)
  | .reset => reset_all_stats st
  | .clear => clear_roster st
  | .importTable header rows => orElseSame st (import_roster st header rows)

/-- A whole session: fold the interactions over a starting state. -/
def run (st : AppState) (ops : List Op) : AppState := ops.foldl step st

/-! ### Dictionary lemmas -/

theorem getStat_setStat_self (s : Stats) (k : String) (v : Int) :
    getStat (setStat s k v) k = v := by
  induction s with
  | nil => simp [setStat, getStat]
  | cons kv rest ih =>
      obtain ⟨k', v'⟩ := kv
      by_cases h : k' = k
      · simp [setStat, h, getStat]
      · simp [setStat, h, getStat, ih]

theorem getStat_setStat_ne (s : Stats) (k k' : String) (v : Int) (h : k ≠ k') :
    getStat (setStat s k v) k' = getStat s k' := by
  induction s with
  | nil => simp [setStat, getStat, h]
  | cons kv rest ih =>
      obtain ⟨k₁, v₁⟩ := kv
      by_cases h₁ : k₁ = k
      · subst h₁; simp [setStat, getStat, h]
      · simp [setStat, h₁, getStat, ih]

/-- All values stored in a stats dict are non-negative. -/
def StatsNonneg (s : Stats) : Prop := ∀ kv ∈ s, 0 ≤ kv.2

theorem getStat_nonneg (s : Stats) (h : StatsNonneg s) (k : String) :
    0 ≤ getStat s k := by
  induction s with
  | nil => simp [getStat]
  | cons kv rest ih =>
      obtain ⟨k', v'⟩ := kv
      by_cases h' : k' = k
      · simpa [getStat, h'] using h (k', v') (by simp)
      · have hrest : StatsNonneg rest := fun kv hkv => h kv (List.mem_cons_of_mem _ hkv)
        simpa [getStat, h'] using ih hrest

theorem setStat_nonneg (s : Stats) (k : String) (v : Int)
    (h : StatsNonneg s) (hv : 0 ≤ v) : StatsNonneg (setStat s k v) := by
  induction s with
  | nil => intro kv hkv; simp [setStat] at hkv; subst hkv; exact hv
  | cons kv₀ rest ih =>
      obtain ⟨k₁, v₁⟩ := kv₀
      intro kv hkv
      by_cases h₁ : k₁ = k
      · simp [setStat, h₁] at hkv
        rcases hkv with hkv | hkv
        · subst hkv; exact hv
        · exact h kv (List.mem_cons_of_mem _ hkv)
      · simp [setStat, h₁] at hkv
        rcases hkv with hkv | hkv
        · subst hkv; exact h (k₁, v₁) (by simp)
        · exact ih (fun kv hkv => h kv (List.mem_cons_of_mem _ hkv)) kv hkv

/-- No entry of the stats dict bears key `k₀`. -/
def KeyFree (s : Stats) (k₀ : String) : Prop := ∀ kv ∈ s, kv.1 ≠ k₀

theorem setStat_keyFree (s : Stats) (k k₀ : String) (v : Int)
    (h : KeyFree s k₀) (hk : k ≠ k₀) : KeyFree (setStat s k v) k₀ := by
  induction s with
  | nil => intro kv hkv; simp [setStat] at hkv; subst hkv; exact hk
  | cons kv₀ rest ih =>
      obtain ⟨k₁, v₁⟩ := kv₀
      intro kv hkv
      by_cases h₁ : k₁ = k
      · simp [setStat, h₁] at hkv
        rcases hkv with hkv | hkv
        · subst hkv; exact hk
        · exact h kv (List.mem_cons_of_mem _ hkv)
      · simp [setStat, h₁] at hkv
        rcases hkv with hkv | hkv
        · subst hkv; exact h (k₁, v₁) (by simp)
        · exact ih (fun kv hkv => h kv (List.mem_cons_of_mem _ hkv)) kv hkv

theorem applyFwd_nil (s : Stats) : applyFwd s [] = s := rfl

theorem applyFwd_cons (s : Stats) (c : String × Int) (cs : List (String × Int)) :
    applyFwd s (c :: cs) =
      applyFwd (if c.1 = "PTS" then s else setStat s c.1 (max 0 (getStat s c.1 + c.2))) cs := rfl

theorem applyUndo_nil (s : Stats) : applyUndo s [] = s := rfl

theorem applyUndo_cons (s : Stats) (c : String × Int) (cs : List (String × Int)) :
    applyUndo s (c :: cs) = applyUndo (setStat s c.1 (max 0 (getStat s c.1 - c.2))) cs := rfl

theorem applyFwd_nonneg (cs : List (String × Int)) :
    ∀ s : Stats, StatsNonneg s → StatsNonneg (applyFwd s cs) := by
  induction cs with
  | nil => intro s h; simpa [applyFwd_nil] using h
  | cons c cs ih =>
      intro s h
      rw [applyFwd_cons]
      by_cases hc : c.1 = "PTS"
      · simpa [hc] using ih s h
      · simpa [hc] using ih _ (setStat_nonneg _ _ _ h (le_max_left _ _))

theorem applyUndo_nonneg (cs : List (String × Int)) :
    ∀ s : Stats, StatsNonneg s → StatsNonneg (applyUndo s cs) := by
  induction cs with
  | nil => intro s h; simpa [applyUndo_nil] using h
  | cons c cs ih =>
      intro s h
      rw [applyUndo_cons]
      exact ih _ (setStat_nonneg _ _ _ h (le_max_left _ _))

theorem applyFwd_keyFree (cs : List (String × Int)) :
    ∀ s : Stats, KeyFree s "PTS" → KeyFree (applyFwd s cs) "PTS" := by
  induction cs with
  | nil => intro s h; simpa [applyFwd_nil] using h
  | cons c cs ih =>
      intro s h
      rw [applyFwd_cons]
      by_cases hc : c.1 = "PTS"
      · simpa [hc] using ih s h
      · simpa [hc] using ih _ (setStat_keyFree _ _ _ _ h hc)

theorem applyUndo_keyFree (cs : List (String × Int)) (hcs : ∀ kd ∈ cs, kd.1 ≠ "PTS") :
    ∀ s : Stats, KeyFree s "PTS" → KeyFree (applyUndo s cs) "PTS" := by
  induction cs with
  | nil => intro s h; simpa [applyUndo_nil] using h
  | cons c cs ih =>
      intro s h
      rw [applyUndo_cons]
      exact ih (fun kd hkd => hcs kd (List.mem_cons_of_mem _ hkd)) _
        (setStat_keyFree _ _ _ _ h (hcs c (by simp)))

/-! ### The non-negativity invariant (claim C1) -/

/-- Every counter of every roster player is non-negative. -/
def StateNonneg (st : AppState) : Prop := ∀ p ∈ st.roster, StatsNonneg p.stats

theorem blank_stats_nonneg : StatsNonneg blank_stats := by
  unfold StatsNonneg; decide

theorem blank_stats_keyFree : KeyFree blank_stats "PTS" := by
  unfold KeyFree; decide

/-- A successful indexed lookup yields a list member. -/
theorem mem_of_lookup {α : Type} {l : List α} {i : Nat} {a : α}
    (h : l[i]? = some a) : a ∈ l := by
  obtain ⟨hlt, rfl⟩ := List.getElem?_eq_some.mp h
  exact List.getElem_mem hlt

theorem apply_change_nonneg (st : AppState) (idx : Nat) (cs : List (String × Int))
    (st' : AppState) (h : StateNonneg st) (he : apply_change st idx cs = .ok st') :
    StateNonneg st' := by
  unfold apply_change at he
  cases hg : st.roster[idx]? with
  | none => rw [hg] at he; cases he
  | some p =>
      rw [hg] at he
      cases he
      intro q hq
      rcases List.mem_or_eq_of_mem_set hq with hmem | rfl
      · exact h q hmem
      · exact applyFwd_nonneg _ _ (h p (mem_of_lookup hg))

theorem undo_last_nonneg (st : AppState) (h : StateNonneg st) :
    StateNonneg (undo_last st).2 := by
  unfold undo_last
  split
  · exact h
  · split
    · exact h
    · rename_i p heq
      intro q hq
      rcases List.mem_or_eq_of_mem_set hq with hmem | rfl
      · exact h q hmem
      · exact applyUndo_nonneg _ _ (h p (mem_of_lookup heq))

theorem step_nonneg (st : AppState) (op : Op) (h : StateNonneg st) :
    StateNonneg (step st op) := by
  cases op with
  | click i =>
      simp only [step]
      cases hc : click_button st (BUTTONS.get i).2.1 (BUTTONS.get i).2.2.1
          (BUTTONS.get i).2.2.2 with
      | error e => simpa [orElseSame] using h
      | ok st' =>
          simp only [orElseSame]
          unfold click_button at hc
          cases hs : st.selected with
          | none =>
              rw [hs] at hc
              simp only [Except.ok.injEq] at hc
              subst hc; exact h
          | some idx =>
              rw [hs] at hc
              exact apply_change_nonneg st idx _ st' h hc
  | undo => exact undo_last_nonneg st h
  | select sel => exact h
  | add name number =>
      simp only [step, add_player]
      by_cases hn : stripStr name = ""
      · simpa [hn, orElseSame] using h
      · simp only [hn, if_false, orElseSame]
        intro q hq
        rcases List.mem_append.mp hq with hmem | hmem
        · exact h q hmem
        · simp at hmem; subst hmem; exact blank_stats_nonneg
  | removeSel =>
      simp only [step, remove_selected]
      cases hs : st.selected with
      | none => simpa [orElseSame] using h
      | some rm_idx =>
          by_cases hlt : rm_idx < st.roster.length
          · simp only [hlt, if_true, orElseSame]
            exact fun q hq => h q (List.eraseIdx_subset _ _ hq)
          · simpa [hlt, orElseSame] using h
  | reset =>
      intro q hq
      simp only [step, reset_all_stats, List.mem_map] at hq
      obtain ⟨p, _, rfl⟩ := hq
      exact blank_stats_nonneg
  | clear => intro q hq; simp [step, clear_roster] at hq
  | importTable header rows =>
      simp only [step, import_roster]
      by_cases hn : "name" ∈ header.map (fun c => stripStr (lowerStr c))
      · simp only [hn, if_true, orElseSame]
        intro q hq
        simp only [List.mem_filterMap] at hq
        obtain ⟨r, _, hr⟩ := hq
        by_cases hnm :
          stripStr (cellAt r ((header.map (fun c => stripStr (lowerStr c))).indexOf "name")) = ""
        · simp [hnm] at hr
        · simp only [hnm, if_false, Option.some_inj] at hr
          subst hr
          exact blank_stats_nonneg
      · simpa [hn, orElseSame] using h

theorem run_nonneg (ops : List Op) :
    ∀ st : AppState, StateNonneg st → StateNonneg (run st ops) := by
  induction ops with
  | nil => intro st h; exact h
  | cons op ops ih =>
      intro st h
      exact ih (step st op) (step_nonneg st op h)

/-- C1: for every sequence of operations (catalog actions via the stat
buttons, undo, and every roster operation) every stored counter of every
player is still non-negative at every intermediate moment: forward
application writes `max(0, old + delta)` and undo writes
`max(0, old - delta)`. -/
theorem c1_counters_nonneg (ops : List Op) (n : Nat) :
    ∀ p ∈ (run initState (ops.take n)).roster, ∀ kv ∈ p.stats, 0 ≤ kv.2 := by
  have h0 : StateNonneg initState := by intro p hp; cases hp
  exact run_nonneg (ops.take n) initState h0

/-- Witness for C1 at a concrete session: add a player, press the
`REB` button, and inspect a concrete stored counter. -/
theorem c1_counters_nonneg_witness :
    (({ name := "Ann", number := "7", stats := blank_stats } : Player) ∈
        (run initState ([Op.add "Ann" "7"].take 1)).roster ∧
      ("REB", (0 : Int)) ∈
        ({ name := "Ann", number := "7", stats := blank_stats } : Player).stats) ∧
      (0 : Int) ≤ (("REB", (0 : Int)) : String × Int).2 :=
  ⟨⟨by decide, by decide⟩,
    c1_counters_nonneg [Op.add "Ann" "7"] 1
      { name := "Ann", number := "7", stats := blank_stats } (by decide)
      ("REB", (0 : Int)) (by decide)⟩

/-! ### `PTS` is never stored (claim C3) -/

/-- No roster player's stats dict stores a `PTS` entry. -/
def RosterPTSFree (st : AppState) : Prop := ∀ p ∈ st.roster, KeyFree p.stats "PTS"

/-- No recorded mutation on the action stack touches the `PTS` key. -/
def StackPTSFree (st : AppState) : Prop :=
  ∀ e ∈ st.action_stack, ∀ kd ∈ e.2, kd.1 ≠ "PTS"

/-- Joint invariant: `PTS` appears neither in stored stats nor in
recorded mutations. -/
def PTSFree (st : AppState) : Prop := RosterPTSFree st ∧ StackPTSFree st

theorem button_key_ne (i : Fin 9) : (BUTTONS.get i).2.1 ≠ "PTS" := by
  fin_cases i <;> decide

theorem button_att_ne (i : Fin 9) (a : String) (h : (BUTTONS.get i).2.2.2 = some a) :
    a ≠ "PTS" := by
  have hb : ∀ j : Fin 9, ((BUTTONS.get j).2.2.2.getD "") ≠ "PTS" := by decide
  have hi := hb i
  rw [h] at hi
  simpa using hi

theorem apply_change_ptsfree (st : AppState) (idx : Nat) (cs : List (String × Int))
    (st' : AppState) (h : PTSFree st) (hcs : ∀ kd ∈ cs, kd.1 ≠ "PTS")
    (he : apply_change st idx cs = .ok st') : PTSFree st' := by
  unfold apply_change at he
  cases hg : st.roster[idx]? with
  | none => rw [hg] at he; cases he
  | some p =>
      rw [hg] at he
      cases he
      constructor
      · intro q hq
        rcases List.mem_or_eq_of_mem_set hq with hmem | rfl
        · exact h.1 q hmem
        · exact applyFwd_keyFree _ _ (h.1 p (mem_of_lookup hg))
      · intro e he
        rcases List.mem_append.mp he with hmem | hmem
        · exact h.2 e hmem
        · simp at hmem; subst hmem; exact hcs

theorem undo_last_ptsfree (st : AppState) (h : PTSFree st) :
    PTSFree (undo_last st).2 := by
  unfold undo_last
  split
  · exact h
  · rename_i idx cs heq
    have hpop : (idx, cs) ∈ st.action_stack := by
      have hx : (idx, cs) ∈ st.action_stack.getLast? := by
        simp [Option.mem_def, heq]
      obtain ⟨hne, hl⟩ := List.mem_getLast?_eq_getLast hx
      rw [hl]
      exact List.getLast_mem hne
    have hcs : ∀ kd ∈ cs, kd.1 ≠ "PTS" := h.2 (idx, cs) hpop
    split
    · exact ⟨h.1, fun e he => h.2 e (List.dropLast_subset _ he)⟩
    · rename_i p heq2
      constructor
      · intro q hq
        rcases List.mem_or_eq_of_mem_set hq with hmem | rfl
        · exact h.1 q hmem
        · exact applyUndo_keyFree _ hcs _ (h.1 p (mem_of_lookup heq2))
      · exact fun e he => h.2 e (List.dropLast_subset _ he)

theorem step_ptsfree (st : AppState) (op : Op) (h : PTSFree st) :
    PTSFree (step st op) := by
  cases op with
  | click i =>
      simp only [step]
      cases hc : click_button st (BUTTONS.get i).2.1 (BUTTONS.get i).2.2.1
          (BUTTONS.get i).2.2.2 with
      | error e => simpa [orElseSame] using h
      | ok st' =>
          simp only [orElseSame]
          unfold click_button at hc
          cases hs : st.selected with
          | none =>
              rw [hs] at hc
              simp only [Except.ok.injEq] at hc
              subst hc; exact h
          | some idx =>
              rw [hs] at hc
              refine apply_change_ptsfree st idx _ st' h ?_ hc
              cases hatt : (BUTTONS.get i).2.2.2 with
              | none =>
                  intro kd hkd
                  simp at hkd; subst hkd
                  exact button_key_ne i
              | some a =>
                  intro kd hkd
                  simp at hkd
                  rcases hkd with hkd | hkd <;> subst hkd
                  · exact button_key_ne i
                  · exact button_att_ne i a hatt
  | undo => exact undo_last_ptsfree st h
  | select sel => exact h
  | add name number =>
      simp only [step, add_player]
      by_cases hn : stripStr name = ""
      · simpa [hn, orElseSame] using h
      · simp only [hn, if_false, orElseSame]
        constructor
        · intro q hq
          rcases List.mem_append.mp hq with hmem | hmem
          · exact h.1 q hmem
          · simp at hmem; subst hmem; exact blank_stats_keyFree
        · exact h.2
  | removeSel =>
      simp only [step, remove_selected]
      cases hs : st.selected with
      | none => simpa [orElseSame] using h
      | some rm_idx =>
          by_cases hlt : rm_idx < st.roster.length
          · simp only [hlt, if_true, orElseSame]
            exact ⟨fun q hq => h.1 q (List.eraseIdx_subset _ _ hq), fun e he => by cases he⟩
          · simpa [hlt, orElseSame] using h
  | reset =>
      constructor
      · intro q hq
        simp only [step, reset_all_stats, List.mem_map] at hq
        obtain ⟨p, _, rfl⟩ := hq
        exact blank_stats_keyFree
      · intro e he; cases he
  | clear =>
      exact ⟨fun q hq => (nomatch hq), fun e he => (nomatch he)⟩
  | importTable header rows =>
      simp only [step, import_roster]
      by_cases hn : "name" ∈ header.map (fun c => stripStr (lowerStr c))
      · simp only [hn, if_true, orElseSame]
        constructor
        · intro q hq
          simp only [List.mem_filterMap] at hq
          obtain ⟨r, _, hr⟩ := hq
          by_cases hnm :
            stripStr (cellAt r ((header.map (fun c => stripStr (lowerStr c))).indexOf "name")) = ""
          · simp [hnm] at hr
          · simp only [hnm, if_false, Option.some_inj] at hr
            subst hr
            exact blank_stats_keyFree
        · intro e he; cases he
      · simpa [hn, orElseSame] using h

theorem run_ptsfree (ops : List Op) :
    ∀ st : AppState, PTSFree st → PTSFree (run st ops) := by
  induction ops with
  | nil => intro st h; exact h
  | cons op ops ih =>
      intro st h
      exact ih (step st op) (step_ptsfree st op h)

/-- C3: derived points are always `2 * 2PM + 3 * 3PM`, recomputed from
the current counters on every read (`points` and the `PTS` cell of the
projected table), and `PTS` is never a stored counter in any reachable
state. -/
theorem c3_derived_points (ops : List Op) (n : Nat) :
    (∀ s : Stats, points s = 2 * getStat s "2PM" + 3 * getStat s "3PM") ∧
    (∀ p : Player, (row_of_player p).PTS = points p.stats) ∧
    (∀ p ∈ (run initState (ops.take n)).roster, ∀ kv ∈ p.stats, kv.1 ≠ "PTS") := by
  refine ⟨fun s => rfl, fun p => rfl, ?_⟩
  have h0 : PTSFree initState :=
    ⟨fun p hp => (nomatch hp), fun e he => (nomatch he)⟩
  exact (run_ptsfree (ops.take n) initState h0).1

/-! ### Empty-stack undo, invalid indices, missing selection (C4, C8, C10) -/

/-- Undo on an empty action stack reports "Nothing to undo" and leaves
the state untouched (shared helper). -/
theorem undo_last_of_empty (st : AppState) (h : st.action_stack = []) :
    undo_last st = (false, st) := by
  unfold undo_last
  rw [h]
  rfl

/-- C8: `undo()` with an empty Undo History returns false and is a
no-op: the entire state (roster, counters, stack) is returned unchanged. -/
theorem c8_undo_empty_noop (st : AppState) (h : st.action_stack = []) :
    undo_last st = (false, st) :=
  undo_last_of_empty st h

/-- Witness for C8: undo on the freshly initialised session. -/
theorem c8_undo_empty_noop_witness :
    initState.action_stack = [] ∧ undo_last initState = (false, initState) :=
  ⟨rfl, c8_undo_empty_noop initState rfl⟩

/-- C10: pressing any stat button with no selected player only warns:
the handler returns with the state exactly as it was (no counter
mutated, nothing pushed on the Undo History). -/
theorem c10_click_without_selection (st : AppState) (h : st.selected = none)
    (stat_key : String) (delta : Int) (implies_attempt : Option String) :
    click_button st stat_key delta implies_attempt = .ok st ∧
      (∀ i : Fin 9, step st (Op.click i) = st) := by
  constructor
  · unfold click_button; rw [h]
  · intro i; simp [step, click_button, h, orElseSame]

/-- Witness for C10 on a concrete state with a roster but no selection. -/
theorem c10_click_without_selection_witness :
    ({ roster := [{ name := "Ann", number := "7", stats := blank_stats }],
       selected := none, action_stack := [] } : AppState).selected = none ∧
    click_button
        { roster := [{ name := "Ann", number := "7", stats := blank_stats }],
          selected := none, action_stack := [] } "REB" 1 none =
      .ok { roster := [{ name := "Ann", number := "7", stats := blank_stats }],
            selected := none, action_stack := [] } :=
  ⟨rfl,
    (c10_click_without_selection
      { roster := [{ name := "Ann", number := "7", stats := blank_stats }],
        selected := none, action_stack := [] } rfl "REB" 1 none).1⟩

/-- C4: an index that does not resolve to a roster position makes
`apply_change` fail (the `IndexError` the spec calls `NotFoundError`)
before any mutation: no counter delta is applied and nothing is pushed,
so the stepped state is unchanged. -/
theorem c4_apply_change_invalid_index (st : AppState) (idx : Nat)
    (changes : List (String × Int)) (h : st.roster.length ≤ idx) :
    apply_change st idx changes = .error .notFound ∧
      (st.selected = some idx → ∀ i : Fin 9, step st (Op.click i) = st) := by
  have hg : st.roster[idx]? = none := List.getElem?_eq_none h
  constructor
  · unfold apply_change; rw [hg]
  · intro hsel i
    cases hatt : (BUTTONS.get i).2.2.2 <;>
      simp [step, click_button, hsel, orElseSame, apply_change, hg, hatt]

/-- Witness for C4: clicking with a dangling selected index `0` on an
empty roster. -/
theorem c4_apply_change_invalid_index_witness :
    ({ roster := [], selected := some 0, action_stack := [] } : AppState).roster.length ≤ 0 ∧
    apply_change { roster := [], selected := some 0, action_stack := [] } 0 [("REB", 1)] =
      .error .notFound :=
  ⟨by decide,
    (c4_apply_change_invalid_index
      { roster := [], selected := some 0, action_stack := [] } 0 [("REB", 1)]
      (by decide)).1⟩

/-! ### Structural edits clear the Undo History (C7) -/

/-- C7: removing the selected player, resetting all stats, clearing the
roster, and a successful import all leave an empty Undo History, so an
immediately following `undo()` is a `false` no-op. -/
theorem c7_structural_edits_clear_history (st : AppState) (idx : Nat)
    (header : List String) (rows : List (List String)) :
    (st.selected = some idx → idx < st.roster.length →
       ∀ st', remove_selected st = .ok st' →
         st'.action_stack = [] ∧ undo_last st' = (false, st')) ∧
    ((reset_all_stats st).action_stack = [] ∧
       undo_last (reset_all_stats st) = (false, reset_all_stats st)) ∧
    ((clear_roster st).action_stack = [] ∧
       undo_last (clear_roster st) = (false, clear_roster st)) ∧
    (∀ st', import_roster st header rows = .ok st' →
       st'.action_stack = [] ∧ undo_last st' = (false, st')) := by
  refine ⟨?_, ⟨rfl, undo_last_of_empty _ rfl⟩, ⟨rfl, undo_last_of_empty _ rfl⟩, ?_⟩
  · intro hsel hlt st' he
    unfold remove_selected at he
    rw [hsel] at he
    simp only [hlt, if_true, Except.ok.injEq] at he
    subst he
    exact ⟨rfl, undo_last_of_empty _ rfl⟩
  · intro st' he
    unfold import_roster at he
    by_cases hn : "name" ∈ header.map (fun c => stripStr (lowerStr c))
    · simp only [hn, if_true, Except.ok.injEq] at he
      subst he
      exact ⟨rfl, undo_last_of_empty _ rfl⟩
    · simp [hn] at he

/-- Witness for C7 on a concrete state with one player and one recorded
action: removing the selected player clears the stack and undo then
no-ops. -/
theorem c7_structural_edits_clear_history_witness :
    (({ roster := [], selected := none, action_stack := [] } : AppState).action_stack = [] ∧
      undo_last { roster := [], selected := none, action_stack := [] } =
        (false, { roster := [], selected := none, action_stack := [] })) :=
  (c7_structural_edits_clear_history
      { roster := [{ name := "Ann", number := "7", stats := blank_stats }],
        selected := some 0, action_stack := [(0, [("REB", 1)])] }
      0 ["name"] [["Alice"]]).1
    rfl (by decide)
    { roster := [], selected := none, action_stack := [] } (by rfl)

/-! ### Undo exactly reverses one unclamped action (C2) -/

theorem applyFwd_single (s : Stats) (k : String) (d : Int) (hk : k ≠ "PTS") :
    applyFwd s [(k, d)] = setStat s k (max 0 (getStat s k + d)) := by
  simp [applyFwd, hk]

theorem applyUndo_single (s : Stats) (k : String) (d : Int) :
    applyUndo s [(k, d)] = setStat s k (max 0 (getStat s k - d)) := by
  simp [applyUndo]

theorem applyFwd_pair (s : Stats) (k₁ k₂ : String) (d : Int)
    (h₁ : k₁ ≠ "PTS") (h₂ : k₂ ≠ "PTS") :
    applyFwd s [(k₁, d), (k₂, d)] =
      setStat (setStat s k₁ (max 0 (getStat s k₁ + d))) k₂
        (max 0 (getStat (setStat s k₁ (max 0 (getStat s k₁ + d))) k₂ + d)) := by
  simp [applyFwd, h₁, h₂]

theorem applyUndo_pair (s : Stats) (k₁ k₂ : String) (d : Int) :
    applyUndo s [(k₁, d), (k₂, d)] =
      setStat (setStat s k₁ (max 0 (getStat s k₁ - d))) k₂
        (max 0 (getStat (setStat s k₁ (max 0 (getStat s k₁ - d))) k₂ - d)) := by
  simp [applyUndo]

/-- A single `+1` mutation on one non-`PTS` key of a non-negative stats
dict followed by its undo leaves every counter value unchanged. -/
theorem roundtrip_single (s : Stats) (k : String) (hk : k ≠ "PTS")
    (hnn : StatsNonneg s) (k' : String) :
    getStat (applyUndo (applyFwd s [(k, 1)]) [(k, 1)]) k' = getStat s k' := by
  have h0 : 0 ≤ getStat s k := getStat_nonneg s hnn k
  rw [applyFwd_single s k 1 hk, applyUndo_single]
  rw [max_eq_right (by omega : (0 : Int) ≤ getStat s k + 1)]
  rw [getStat_setStat_self]
  have he : getStat s k + 1 - 1 = getStat s k := by ring
  rw [he, max_eq_right h0]
  by_cases hk' : k = k'
  · subst hk'
    rw [getStat_setStat_self]
  · rw [getStat_setStat_ne _ _ _ _ hk', getStat_setStat_ne _ _ _ _ hk']

/-- A compound `+1` mutation on two distinct non-`PTS` keys followed by
its undo leaves every counter value unchanged. -/
theorem roundtrip_pair (s : Stats) (k₁ k₂ : String) (h12 : k₁ ≠ k₂)
    (h₁ : k₁ ≠ "PTS") (h₂ : k₂ ≠ "PTS") (hnn : StatsNonneg s) (k' : String) :
    getStat (applyUndo (applyFwd s [(k₁, 1), (k₂, 1)]) [(k₁, 1), (k₂, 1)]) k' =
      getStat s k' := by
  have h01 : 0 ≤ getStat s k₁ := getStat_nonneg s hnn k₁
  have h02 : 0 ≤ getStat s k₂ := getStat_nonneg s hnn k₂
  have hf : applyFwd s [(k₁, 1), (k₂, 1)] =
      setStat (setStat s k₁ (getStat s k₁ + 1)) k₂ (getStat s k₂ + 1) := by
    rw [applyFwd_pair s k₁ k₂ 1 h₁ h₂]
    rw [max_eq_right (by omega : (0 : Int) ≤ getStat s k₁ + 1)]
    rw [getStat_setStat_ne _ _ _ _ h12]
    rw [max_eq_right (by omega : (0 : Int) ≤ getStat s k₂ + 1)]
  have hu : applyUndo
        (setStat (setStat s k₁ (getStat s k₁ + 1)) k₂ (getStat s k₂ + 1))
        [(k₁, 1), (k₂, 1)] =
      setStat
        (setStat (setStat (setStat s k₁ (getStat s k₁ + 1)) k₂ (getStat s k₂ + 1)) k₁
          (getStat s k₁))
        k₂ (getStat s k₂) := by
    rw [applyUndo_pair]
    rw [getStat_setStat_ne _ _ _ _ (Ne.symm h12)]
    rw [getStat_setStat_self]
    have he₁ : getStat s k₁ + 1 - 1 = getStat s k₁ := by ring
    rw [he₁, max_eq_right h01]
    rw [getStat_setStat_ne _ _ _ _ h12]
    rw [getStat_setStat_self]
    have he₂ : getStat s k₂ + 1 - 1 = getStat s k₂ := by ring
    rw [he₂, max_eq_right h02]
  rw [hf, hu]
  by_cases hk₂ : k₂ = k'
  · subst hk₂
    rw [getStat_setStat_self]
  · rw [getStat_setStat_ne _ _ _ _ hk₂]
    by_cases hk₁ : k₁ = k'
    · subst hk₁
      rw [getStat_setStat_self]
    · rw [getStat_setStat_ne _ _ _ _ hk₁, getStat_setStat_ne _ _ _ _ hk₂,
        getStat_setStat_ne _ _ _ _ hk₁]

instance : Inhabited Player := ⟨{ name := "", number := "", stats := [] }⟩

/-- `st'` observationally restores `st`: same selection, same undo
stack, same roster length, and every roster slot carries the same name,
number, and counter values. -/
def Restored (st st' : AppState) : Prop :=
  st'.selected = st.selected ∧
  st'.action_stack = st.action_stack ∧
  st'.roster.length = st.roster.length ∧
  ∀ j : Nat,
    (st'.roster.getD j default).name = (st.roster.getD j default).name ∧
    (st'.roster.getD j default).number = (st.roster.getD j default).number ∧
    ∀ k : String,
      getStat (st'.roster.getD j default).stats k =
        getStat (st.roster.getD j default).stats k

/-- What a successful `apply_change` returns, spelled out. -/
theorem apply_change_ok (st : AppState) (idx : Nat) (changes : List (String × Int))
    (hidx : idx < st.roster.length) :
    apply_change st idx changes =
      .ok { st with
              roster := st.roster.set idx
                { st.roster.get ⟨idx, hidx⟩ with
                    stats := applyFwd (st.roster.get ⟨idx, hidx⟩).stats changes },
              action_stack := st.action_stack ++ [(idx, changes)] } := by
  have hg : st.roster[idx]? = some (st.roster.get ⟨idx, hidx⟩) := by
    rw [List.getElem?_eq_getElem hidx]
    rfl
  unfold apply_change
  rw [hg]

/-- Undoing right after a pushed mutation pops that very entry and
subtracts its deltas from the same player. -/
theorem undo_last_push (st : AppState) (idx : Nat) (changes : List (String × Int))
    (p1 : Player) (hidx : idx < st.roster.length) :
    undo_last { st with roster := st.roster.set idx p1,
                        action_stack := st.action_stack ++ [(idx, changes)] } =
      (true, { st with
                 roster := (st.roster.set idx p1).set idx
                   { p1 with stats := applyUndo p1.stats changes },
                 action_stack := st.action_stack }) := by
  have hlast : (st.action_stack ++ [(idx, changes)]).getLast? = some (idx, changes) :=
    List.getLast?_concat _
  have hg1 : (st.roster.set idx p1)[idx]? = some p1 :=
    List.getElem?_set_eq_of_lt p1 hidx
  unfold undo_last
  simp only [hlast, hg1, List.dropLast_concat]

/-- Core of C2 at the `apply_change`/`undo_last` level: when the
compound mutation round-trips on non-negative stats, applying then
undoing observationally restores the state and the popped stack is the
original one. -/
theorem apply_change_then_undo (st : AppState) (idx : Nat)
    (changes : List (String × Int)) (hidx : idx < st.roster.length)
    (hnn : StateNonneg st)
    (H : ∀ s : Stats, StatsNonneg s → ∀ k : String,
        getStat (applyUndo (applyFwd s changes) changes) k = getStat s k) :
    ∃ st1, apply_change st idx changes = .ok st1 ∧
      (undo_last st1).1 = true ∧ Restored st (undo_last st1).2 := by
  refine ⟨_, apply_change_ok st idx changes hidx, ?_, ?_⟩
  · rw [undo_last_push st idx changes _ hidx]
  · rw [undo_last_push st idx changes _ hidx]
    rw [List.set_set]
    refine ⟨rfl, rfl, by simp, ?_⟩
    intro j
    by_cases hj : idx = j
    · subst hj
      have hset : (st.roster.set idx
          { st.roster.get ⟨idx, hidx⟩ with
              stats := applyUndo (applyFwd (st.roster.get ⟨idx, hidx⟩).stats changes)
                changes })[idx]? =
          some { st.roster.get ⟨idx, hidx⟩ with
                   stats := applyUndo (applyFwd (st.roster.get ⟨idx, hidx⟩).stats changes)
                     changes } :=
        List.getElem?_set_eq_of_lt _ hidx
      have hold : st.roster[idx]? = some (st.roster.get ⟨idx, hidx⟩) := by
        rw [List.getElem?_eq_getElem hidx]
        rfl
      simp only [List.getD_eq_getElem?_getD, hset, hold, Option.getD_some]
      exact ⟨by trivial, by trivial,
        fun k => H _ (hnn _ (List.get_mem st.roster idx hidx)) k⟩
    · have hset : (st.roster.set idx
          { st.roster.get ⟨idx, hidx⟩ with
              stats := applyUndo (applyFwd (st.roster.get ⟨idx, hidx⟩).stats changes)
                changes })[j]? = st.roster[j]? :=
        List.getElem?_set_ne hj
      simp only [List.getD_eq_getElem?_getD, hset]
      exact ⟨by trivial, by trivial, fun k => by trivial⟩

/-- C2 at the button level, single-key actions. -/
theorem click_then_undo_single (st : AppState) (idx : Nat) (k : String)
    (hsel : st.selected = some idx) (hidx : idx < st.roster.length)
    (hnn : StateNonneg st) (hk : k ≠ "PTS") :
    ∃ st1, click_button st k 1 none = .ok st1 ∧
      (undo_last st1).1 = true ∧ Restored st (undo_last st1).2 := by
  have key := apply_change_then_undo st idx [(k, 1)] hidx hnn
    (fun s hs k' => roundtrip_single s k hk hs k')
  unfold click_button
  rw [hsel]
  exact key

/-- C2 at the button level, make-plus-implied-attempt actions. -/
theorem click_then_undo_pair (st : AppState) (idx : Nat) (k a : String)
    (hsel : st.selected = some idx) (hidx : idx < st.roster.length)
    (hnn : StateNonneg st) (hk : k ≠ "PTS") (ha : a ≠ "PTS") (hka : k ≠ a) :
    ∃ st1, click_button st k 1 (some a) = .ok st1 ∧
      (undo_last st1).1 = true ∧ Restored st (undo_last st1).2 := by
  have key := apply_change_then_undo st idx [(k, 1), (a, 1)] hidx hnn
    (fun s hs k' => roundtrip_pair s k a hka hk ha hs k')
  unfold click_button
  rw [hsel]
  exact key

/-- C2: for any roster, any valid selected player, and any catalog
button, the action succeeds (the `+1` deltas never clamp on counters
that are non-negative) and an immediate `undo()` pops the pushed entry,
leaving the undo stack as before and every touched counter at its exact
pre-action value. -/
theorem c2_undo_reverses_single_action (st : AppState) (i : Fin 9) (idx : Nat)
    (hsel : st.selected = some idx) (hidx : idx < st.roster.length)
    (hnn : StateNonneg st) :
    ∃ st1, click_button st (BUTTONS.get i).2.1 (BUTTONS.get i).2.2.1
        (BUTTONS.get i).2.2.2 = .ok st1 ∧
      (undo_last st1).1 = true ∧ Restored st (undo_last st1).2 := by
  fin_cases i <;>
    first
      | exact click_then_undo_pair st idx _ _ hsel hidx hnn
          (by decide) (by decide) (by decide)
      | exact click_then_undo_single st idx _ hsel hidx hnn (by decide)

/-- Witness for C2: press the made-two button for a fresh player and
undo. -/
theorem c2_undo_reverses_single_action_witness :
    ({ roster := [{ name := "Ann", number := "7", stats := blank_stats }],
       selected := some 0, action_stack := [] } : AppState).selected = some 0 ∧
    (0 < ({ roster := [{ name := "Ann", number := "7", stats := blank_stats }],
            selected := some 0, action_stack := [] } : AppState).roster.length) ∧
    (∃ st1,
      click_button
          { roster := [{ name := "Ann", number := "7", stats := blank_stats }],
            selected := some 0, action_stack := [] }
          (BUTTONS.get (0 : Fin 9)).2.1 (BUTTONS.get (0 : Fin 9)).2.2.1
          (BUTTONS.get (0 : Fin 9)).2.2.2 = .ok st1 ∧
      (undo_last st1).1 = true ∧
      Restored
        { roster := [{ name := "Ann", number := "7", stats := blank_stats }],
          selected := some 0, action_stack := [] } (undo_last st1).2) :=
  ⟨rfl, by decide,
    c2_undo_reverses_single_action
      { roster := [{ name := "Ann", number := "7", stats := blank_stats }],
        selected := some 0, action_stack := [] } (0 : Fin 9) 0 rfl (by decide)
      (fun p hp => by
        simp only [List.mem_singleton] at hp
        subst hp
        exact blank_stats_nonneg)⟩

/-! ### Roster import (C5, C6) -/

/-- C6: an import whose header has no recognizable `name` column
(matched case-insensitively after trimming) fails with `SchemaError` and
is aborted atomically: the stepped session state — roster, counters and
Undo History — is exactly what it was. -/
theorem c6_import_without_name_header (st : AppState) (header : List String)
    (rows : List (List String))
    (h : "name" ∉ header.map (fun c => stripStr (lowerStr c))) :
    import_roster st header rows = .error .schema ∧
      step st (Op.importTable header rows) = st := by
  constructor
  · unfold import_roster; simp [h]
  · simp [step, import_roster, h, orElseSame]

/-- Witness for C6: importing a table headed `player` only. -/
theorem c6_import_without_name_header_witness :
    "name" ∉ (["player"].map (fun c => stripStr (lowerStr c))) ∧
      import_roster initState ["player"] [["Alice"]] = .error .schema :=
  ⟨by decide,
    (c6_import_without_name_header initState ["player"] [["Alice"]] (by decide)).1⟩

/-- C5: on any successful import every kept row becomes a player with
zeroed counters and a non-empty trimmed name (rows whose trimmed name is
empty are skipped); in particular the source `name\nAlice\nBob\n,Eve`
parses to the 4-row table below and imports as exactly the two players
`Alice` and `Bob`, each with `blank_stats`. -/
theorem c5_import_rows (st : AppState) (header : List String)
    (rows : List (List String)) (st' : AppState)
    (h : import_roster st header rows = .ok st') :
    (∀ p ∈ st'.roster, p.stats = blank_stats ∧ p.name ≠ "") ∧
      parseRows "name\nAlice\nBob\n,Eve" = [["name"], ["Alice"], ["Bob"], ["", "Eve"]] ∧
      import_roster st ["name"] [["Alice"], ["Bob"], ["", "Eve"]] =
        .ok { roster := [{ name := "Alice", number := "", stats := blank_stats },
                         { name := "Bob", number := "", stats := blank_stats }],
              selected := some 0, action_stack := [] } := by
  refine ⟨?_, by rfl, by rfl⟩
  unfold import_roster at h
  by_cases hn : "name" ∈ header.map (fun c => stripStr (lowerStr c))
  · simp only [hn, if_true, Except.ok.injEq] at h
    subst h
    intro p hp
    simp only [List.mem_filterMap] at hp
    obtain ⟨r, _, hr⟩ := hp
    by_cases hnm :
      stripStr (cellAt r ((header.map (fun c => stripStr (lowerStr c))).indexOf "name")) = ""
    · simp [hnm] at hr
    · simp only [hnm, if_false, Option.some_inj] at hr
      subst hr
      exact ⟨rfl, hnm⟩
  · simp [hn] at h

/-- Witness for C5: a one-row import, checked on its only player. -/
theorem c5_import_rows_witness :
    import_roster initState ["name"] [["Alice"]] =
        .ok { roster := [{ name := "Alice", number := "", stats := blank_stats }],
              selected := some 0, action_stack := [] } ∧
      ({ name := "Alice", number := "", stats := blank_stats } : Player).stats = blank_stats ∧
      ({ name := "Alice", number := "", stats := blank_stats } : Player).name ≠ "" :=
  ⟨by rfl,
    (c5_import_rows initState ["name"] [["Alice"]]
        { roster := [{ name := "Alice", number := "", stats := blank_stats }],
          selected := some 0, action_stack := [] } (by rfl)).1
      { name := "Alice", number := "", stats := blank_stats } (by decide)⟩

/-! ### The box-score projection (C9) -/

/-- C9: the projected table has one row per player in roster order (PTS
recomputed via `points`, every other column read from the counters); a
non-empty roster gets a final `TOTALS` row (`PLAYER = "TOTALS"`,
`NUMBER = ""`) whose numeric columns, `PTS` included, are the sums of
the player rows; an empty roster projects to headers only (no rows). -/
theorem c9_projection (st : AppState) :
    (st.roster = [] → build_df st = []) ∧
    (st.roster ≠ [] →
       (build_df st).dropLast = st.roster.map row_of_player ∧
       (build_df st).getLast? =
         some { PLAYER := "TOTALS", NUMBER := "",
                PTS := ((st.roster.map row_of_player).map Row.PTS).sum,
                REB := ((st.roster.map row_of_player).map Row.REB).sum,
                AST := ((st.roster.map row_of_player).map Row.AST).sum,
                «2PM» := ((st.roster.map row_of_player).map Row.«2PM»).sum,
                «2PA» := ((st.roster.map row_of_player).map Row.«2PA»).sum,
                «3PM» := ((st.roster.map row_of_player).map Row.«3PM»).sum,
                «3PA» := ((st.roster.map row_of_player).map Row.«3PA»).sum,
                STL := ((st.roster.map row_of_player).map Row.STL).sum,
                BLK := ((st.roster.map row_of_player).map Row.BLK).sum,
                TOV := ((st.roster.map row_of_player).map Row.TOV).sum }) ∧
    (∀ p : Player, row_of_player p =
       { PLAYER := p.name, NUMBER := p.number, PTS := points p.stats,
         REB := getStat p.stats "REB", AST := getStat p.stats "AST",
         «2PM» := getStat p.stats "2PM", «2PA» := getStat p.stats "2PA",
         «3PM» := getStat p.stats "3PM", «3PA» := getStat p.stats "3PA",
         STL := getStat p.stats "STL", BLK := getStat p.stats "BLK",
         TOV := getStat p.stats "TOV" }) := by
  refine ⟨?_, ?_, fun p => rfl⟩
  · intro h
    simp [build_df, h]
  · intro h
    have hlen : 0 < (st.roster.map row_of_player).length := by
      simpa [List.length_map] using List.length_pos.mpr h
    constructor
    · simp only [build_df, hlen, if_pos, gt_iff_lt]
      rw [List.dropLast_concat]
    · simp only [build_df, gt_iff_lt]
      rw [if_pos hlen, List.getLast?_concat]
      rfl

/-- The spec's §8 projection example: Alice with two made threes of
three attempts, Bob with one made two of one attempt. -/
def exampleState : AppState :=
  { roster :=
      [ { name := "Alice", number := "11", stats := [("3PM", 2), ("3PA", 3)] },
        { name := "Bob", number := "22", stats := [("2PM", 1), ("2PA", 1)] } ],
    selected := none, action_stack := [] }

/-- Witness for C9 on the spec's example roster. -/
theorem c9_projection_witness :
    (build_df exampleState).dropLast = exampleState.roster.map row_of_player ∧
    (build_df exampleState).getLast? =
      some { PLAYER := "TOTALS", NUMBER := "",
             PTS := ((exampleState.roster.map row_of_player).map Row.PTS).sum,
             REB := ((exampleState.roster.map row_of_player).map Row.REB).sum,
             AST := ((exampleState.roster.map row_of_player).map Row.AST).sum,
             «2PM» := ((exampleState.roster.map row_of_player).map Row.«2PM»).sum,
             «2PA» := ((exampleState.roster.map row_of_player).map Row.«2PA»).sum,
             «3PM» := ((exampleState.roster.map row_of_player).map Row.«3PM»).sum,
             «3PA» := ((exampleState.roster.map row_of_player).map Row.«3PA»).sum,
             STL := ((exampleState.roster.map row_of_player).map Row.STL).sum,
             BLK := ((exampleState.roster.map row_of_player).map Row.BLK).sum,
             TOV := ((exampleState.roster.map row_of_player).map Row.TOV).sum } :=
  (c9_projection exampleState).2.1 (by decide)

/-- Witness for C3 at a concrete session and stored counter. -/
theorem c3_derived_points_witness :
    (({ name := "Ann", number := "7", stats := blank_stats } : Player) ∈
        (run initState ([Op.add "Ann" "7"].take 1)).roster ∧
      ("REB", (0 : Int)) ∈
        ({ name := "Ann", number := "7", stats := blank_stats } : Player).stats) ∧
      ("REB", (0 : Int)).1 ≠ "PTS" :=
  ⟨⟨by decide, by decide⟩,
    (c3_derived_points [Op.add "Ann" "7"] 1).2.2
      { name := "Ann", number := "7", stats := blank_stats } (by decide)
      ("REB", (0 : Int)) (by decide)⟩

end StatClicker
